import Mathlib

/-!
Verification of the perceval-mozilla backends (kitsune.py and remo.py).

The development shallowly embeds the two backends:
  * items (questions, answers, events, ...) are identified by natural
    numbers; a remote source is a list of item identifiers in update order
    together with a per-question answers table and an optional per-page
    failure table (HTTP status of a failing page request);
  * raw JSON payloads pushed to the cache are embedded as an inductive
    fragment type: an integer offset marker, a page payload carrying the
    fields count, results and next that the code reads, a detail payload,
    and the empty-dict sentinel pushed by the Kitsune backend;
  * generators are embedded as recursive functions; the page loops of the
    backends take an explicit fuel argument because the Python loop is
    only bounded by the behaviour of the remote transport.
Python errors that the code can raise (CacheError, the propagated
HTTPError, ValueError, TypeError from json.loads on an int, KeyError,
UnboundLocalError from reading a variable never assigned, StopIteration
from calling next on a drained iterator) are embedded as an error type.
-/

namespace PercevalMozilla

/-- Items per page in the Kitsune and ReMo APIs (ITEMS_PER_PAGE in both
clients, kitsune.py line 292 and remo.py line 261). -/
def IPP : Nat := 20

/-- Initial page of both APIs (FIRST_PAGE, kitsune.py line 291 and
remo.py line 260). -/
def FIRST_PAGE : Nat := 1

/-- Intra-page drop count computed by both backends from an offset:
page = offset / ITEMS_PER_PAGE, page_offset = page * ITEMS_PER_PAGE,
drop = offset - page_offset (kitsune.py lines 106-109, lines 181-184,
remo.py lines 109-112). -/
def pageDrop (offset : Nat) : Nat := offset - offset / IPP * IPP

/-- Offset translator: the page/drop pair the backends derive from a
logical offset, generalised over the page size, with the client adding
the first page number (kitsune.py lines 104-110 and 297-303, remo.py
lines 109-112 and 291-292). -/
def translate (offset pageSize firstPage : Nat) : Nat × Nat :=
  (firstPage + offset / pageSize, offset - offset / pageSize * pageSize)

/-- Stamps the elements of a list with consecutive offsets starting at
a given counter, the way both backends stamp emitted items. -/
def stampFrom (f : Nat → Nat → α) : Nat → List Nat → List α
  | _, [] => []
  | c, q :: qs => f c q :: stampFrom f (c + 1) qs

/-- Page payload as decoded by the backends: the count, results and next
fields of the JSON page object (kitsune.py lines 137-139 and 320-321,
remo.py lines 123-127 and 311-312).  The next field carries the page
number embedded in the next URL, or none when the field is null. -/
structure Payload where
  count : Nat
  results : List Nat
  next : Option Nat
deriving DecidableEq, Repr

/-- Error values the embedded code can produce.  The constructor http
carries the status of a propagated HTTPError; fuelExhausted is the
artificial out-of-fuel marker of the fuel-bounded replay loop. -/
inductive PyErr where
  | cacheError
  | stopIteration
  | typeError
  | keyError
  | unboundLocal
  | valueError
  | http (status : Nat)
  | classificationError (ident : String)
  | typeErrorStrConcat (msg : String)
  | fuelExhausted
deriving DecidableEq, Repr

/-! ## Kitsune: data model -/

/-- Raw fragment written to / read from the Kitsune cache: the integer
offset pushed at run start (kitsune.py line 98), a raw page payload
(question pages pushed at line 134, answer pages at line 154), and the
empty-dict end-of-question sentinel pushed at line 159.  Question pages
and answer pages have the same JSON shape, so one payload constructor
embeds both, exactly as the replay code cannot tell them apart either. -/
inductive KFrag where
  | int (n : Nat)
  | payload (pl : Payload)
  | empty
deriving DecidableEq, Repr

/-- Item emitted by the Kitsune backend: the question identifier, the
offset stamped into it (kitsune.py line 150) and the aggregated
answers_data list (lines 152-156). -/
structure KItem where
  qid : Nat
  offset : Nat
  answers : List Nat
deriving DecidableEq, Repr

/-- Deterministic Kitsune remote source: all questions in update order,
the full answers list of each question, and an optional table of page
requests that fail with a given HTTP status. -/
structure KSource where
  questions : List Nat
  answers : Nat → List Nat
  failPages : Nat → Option Nat

/-- Question-page request of KitsuneClient.get_questions (kitsune.py
lines 307-318): page p of the questions list, ordering fixed, with the
count, results and next fields the API returns. -/
def kcall (src : KSource) (p : Nat) : Except Nat Payload :=
  match src.failPages p with
  | some s => .error s
  | none =>
      .ok ⟨src.questions.length,
           (src.questions.drop ((p - FIRST_PAGE) * IPP)).take IPP,
           if p * IPP < src.questions.length then some (p + 1) else none⟩

/-- Raw answer pages of one question as produced by
KitsuneClient.get_question_answers (kitsune.py lines 326-347): pages of
at most ITEMS_PER_PAGE answers, the next field set while more pages
remain.  The fuel argument bounds the loop; any fuel above the number
of answers is enough. -/
def ansFrags : Nat → Nat → Nat → List Nat → List KFrag
  | 0, _, _, _ => []
  | fuel + 1, cnt, p, l =>
    if IPP < l.length then
      .payload ⟨cnt, l.take IPP, some (p + 1)⟩ :: ansFrags fuel cnt (p + 1) (l.drop IPP)
    else
      [.payload ⟨cnt, l, none⟩]

/-- Cache fragments pushed while processing one emitted question: its raw
answer pages (kitsune.py line 154) followed by the empty-dict sentinel
(line 159). -/
def ansBlock (src : KSource) (q : Nat) : List KFrag :=
  ansFrags ((src.answers q).length + 1) (src.answers q).length FIRST_PAGE (src.answers q)
    ++ [.empty]

/-- State produced by the inner question loop of Kitsune.fetch on one
page: emitted items, pushed fragments, remaining drop counter and the
advanced current offset. -/
structure KEmit where
  items : List KItem
  frags : List KFrag
  dropn : Nat
  cur : Nat
deriving DecidableEq, Repr

/-- Inner question loop of Kitsune.fetch (kitsune.py lines 145-159):
questions still covered by the drop counter are skipped without
advancing the offset; every other question is stamped with the current
offset, its answers are fetched and pushed, and the end-of-question
sentinel is pushed after the yield. -/
def emitPage (src : KSource) : Nat → Nat → List Nat → KEmit
  | dropn, cur, [] => ⟨[], [], dropn, cur⟩
  | dropn, cur, q :: qs =>
    if 0 < dropn then emitPage src (dropn - 1) cur qs
    else
      let e := emitPage src dropn (cur + 1) qs
      ⟨⟨q, cur, src.answers q⟩ :: e.items, ansBlock src q ++ e.frags, e.dropn, e.cur⟩

/-- Outcome of a live fetch run: emitted items, pushed cache fragments,
the trace of requested page numbers, the counter of questions lost to
500 errors (equestions, kitsune.py line 102) and the propagated error,
if any. -/
structure KOutcome where
  items : List KItem
  frags : List KFrag
  pages : List Nat
  lost : Nat
  err : Option PyErr
deriving DecidableEq, Repr

/-- Page loop of Kitsune.fetch (kitsune.py lines 112-163) over the
generator KitsuneClient.get_questions.  A page request failing with
status 500 loses one page of questions, advances the current offset by
one page and restarts the generator at the new offset (lines 119-129);
any other HTTP error propagates (lines 130-132); a successful page is
pushed and its questions are emitted; the loop ends when the next field
of the page is empty (lines 320-323). -/
def kfetchGo (src : KSource) : Nat → Nat → Nat → Nat → Nat → Option KOutcome
  | 0, _, _, _, _ => none
  | fuel + 1, p, dropn, cur, lost =>
    match kcall src p with
    | .error s =>
      if s = 500 then
        (kfetchGo src fuel (FIRST_PAGE + (cur + IPP) / IPP) dropn (cur + IPP) (lost + IPP)).map
          (fun o => { o with pages := p :: o.pages })
      else
        some ⟨[], [], [p], lost, some (.http s)⟩
    | .ok pl =>
      let e := emitPage src dropn cur pl.results
      match pl.next with
      | none => some ⟨e.items, .payload pl :: e.frags, [p], lost, none⟩
      | some _ =>
        (kfetchGo src fuel (p + 1) e.dropn e.cur lost).map
          (fun o => ⟨e.items ++ o.items, .payload pl :: (e.frags ++ o.frags),
                     p :: o.pages, o.lost, o.err⟩)

/-- Kitsune.fetch (kitsune.py lines 85-166): purge the cache queue, push
the offset, compute the page-aligned drop counter and run the page loop
from page FIRST_PAGE + offset / ITEMS_PER_PAGE. -/
def kitsuneFetch (src : KSource) (offset fuel : Nat) : Option KOutcome :=
  (kfetchGo src fuel (FIRST_PAGE + offset / IPP) (pageDrop offset) offset 0).map
    (fun o => { o with frags := .int offset :: o.frags })

/-! ## Kitsune: replay from cache -/

/-- Inner answer reader of Kitsune.fetch_from_cache (kitsune.py lines
186-198): read fragments until the empty-dict sentinel, collecting the
results lists; a drained iterator simply ends the loop; json.loads on an
integer fragment raises TypeError. -/
def getAnswers : List KFrag → Except PyErr (List Nat × List KFrag)
  | [] => .ok ([], [])
  | .empty :: rest => .ok ([], rest)
  | .payload pl :: rest =>
    (getAnswers rest).map (fun r => (pl.results ++ r.1, r.2))
  | .int _ :: _ => .error .typeError

/-- State of the replay question loop: emitted items, the offset and
drop variables of fetch_from_cache (None while never assigned, which
makes reading them raise UnboundLocalError) and the remaining cache
fragments. -/
structure KQRes where
  items : List KItem
  off : Option Nat
  dr : Option Nat
  rest : List KFrag
deriving DecidableEq, Repr

/-- Question loop of Kitsune.fetch_from_cache (kitsune.py lines
221-230): drop questions while the drop counter is positive, otherwise
stamp the offset, advance it, and read the answers of the question from
the following cache fragments. -/
def kreplayQuestions : List Nat → Option Nat → Option Nat → List KFrag →
    Except PyErr KQRes
  | [], off, dr, rest => .ok ⟨[], off, dr, rest⟩
  | q :: qs, off, dr, rest =>
    match dr with
    | none => .error .unboundLocal
    | some d =>
      if 0 < d then kreplayQuestions qs off (some (d - 1)) rest
      else
        match off with
        | none => .error .unboundLocal
        | some o =>
          match getAnswers rest with
          | .error e => .error e
          | .ok g =>
            match kreplayQuestions qs (some (o + 1)) (some d) g.2 with
            | .error e => .error e
            | .ok r => .ok ⟨⟨q, o, g.1⟩ :: r.items, r.off, r.dr, r.rest⟩

/-- Head of one iteration of the outer replay loop of
Kitsune.fetch_from_cache after the marker test (kitsune.py lines
215-220): an integer in page position makes json.loads raise TypeError;
an empty dict is skipped by taking the next fragment, whose results
field is then read (KeyError on a second empty dict, TypeError on an
integer, StopIteration on a drained iterator). -/
def kstepCore (raw : KFrag) (rest : List KFrag) (off dr : Option Nat) :
    Except PyErr (Option (List Nat × Option Nat × Option Nat × List KFrag)) :=
  match raw with
  | .int _ => .error .typeError
  | .empty =>
    match rest with
    | [] => .error .stopIteration
    | .int _ :: _ => .error .typeError
    | .empty :: _ => .error .keyError
    | .payload pl :: r3 => .ok (some (pl.results, off, dr, r3))
  | .payload pl => .ok (some (pl.results, off, dr, rest))

/-- One step of the outer loop of Kitsune.fetch_from_cache (kitsune.py
lines 209-220): a drained iterator ends the loop; an integer fragment
sets the offset and recomputes the drop counter, and the next fragment
becomes the page (StopIteration if the ledger ends there). -/
def kstep : List KFrag → Option Nat → Option Nat →
    Except PyErr (Option (List Nat × Option Nat × Option Nat × List KFrag))
  | [], _, _ => .ok none
  | [.int _], _, _ => .error .stopIteration
  | .int n :: g :: r2, _, _ => kstepCore g r2 (some n) (some (pageDrop n))
  | .payload pl :: rest, off, dr => kstepCore (.payload pl) rest off dr
  | .empty :: rest, off, dr => kstepCore .empty rest off dr

/-- Outer loop of Kitsune.fetch_from_cache (kitsune.py lines 209-230),
bounded by fuel; the wrapper supplies one unit of fuel per fragment plus
one, which is always enough because every iteration consumes at least
one fragment. -/
def kreplayGo : Nat → List KFrag → Option Nat → Option Nat → Except PyErr (List KItem)
  | 0, _, _, _ => .error .fuelExhausted
  | fuel + 1, l, off, dr =>
    match kstep l off dr with
    | .error e => .error e
    | .ok none => .ok []
    | .ok (some st) =>
      match kreplayQuestions st.1 st.2.1 st.2.2.1 st.2.2.2 with
      | .error e => .error e
      | .ok r =>
        match kreplayGo fuel r.rest r.off r.dr with
        | .error e => .error e
        | .ok items => .ok (r.items ++ items)

/-- Kitsune.fetch_from_cache (kitsune.py lines 168-233): CacheError when
no cache instance was provided, otherwise replay the retrieved
fragments. -/
def kitsuneFetchFromCache : Option (List KFrag) → Except PyErr (List KItem)
  | none => .error .cacheError
  | some l => kreplayGo (l.length + 1) l none none

/-! ## ReMo: data model -/

/-- Raw fragment written to / read from the ReMo cache: the integer
offset pushed at run start (remo.py line 119), a raw page payload
(line 122) and a raw item-detail payload (line 134).  A page payload
decodes to a dict with a count key, a detail payload to one without. -/
inductive RFrag where
  | int (n : Nat)
  | page (pl : Payload)
  | detail (d : Nat)
deriving DecidableEq, Repr

/-- Item emitted by the ReMo backend: the decoded detail payload and the
offset stamped into it (remo.py lines 135-138). -/
structure RItem where
  data : Nat
  offset : Nat
deriving DecidableEq, Repr

/-- Deterministic ReMo remote source: the item list of every category in
update order, the detail payload behind the _url of each listed item,
and an optional table of page requests failing with an HTTP status. -/
structure RSource where
  lists : String → List Nat
  detail : Nat → Nat
  failPages : Nat → Option Nat

/-- Item-page request of ReMoClient.get_items (remo.py lines 303-311):
page p of the list of the chosen category, with the count, results and
next fields the API returns; the next field carries the page parameter
embedded in the next URL. -/
def rcall (src : RSource) (cat : String) (p : Nat) : Except Nat Payload :=
  match src.failPages p with
  | some s => .error s
  | none =>
      .ok ⟨(src.lists cat).length,
           ((src.lists cat).drop ((p - FIRST_PAGE) * IPP)).take IPP,
           if p * IPP < (src.lists cat).length then some (p + 1) else none⟩

/-- State produced by the inner item loop of ReMo.fetch on one page:
emitted items, pushed fragments, detail URLs called, remaining drop
counter and the advanced current offset. -/
structure REmit where
  items : List RItem
  frags : List RFrag
  dcalls : List Nat
  dropn : Nat
  cur : Nat
deriving DecidableEq, Repr

/-- Inner item loop of ReMo.fetch (remo.py lines 128-141): items covered
by the drop counter are skipped; every other item has its detail payload
fetched and pushed, is stamped with the current offset and emitted. -/
def remoEmit (src : RSource) : Nat → Nat → List Nat → REmit
  | dropn, cur, [] => ⟨[], [], [], dropn, cur⟩
  | dropn, cur, it :: its =>
    if 0 < dropn then remoEmit src (dropn - 1) cur its
    else
      let e := remoEmit src dropn (cur + 1) its
      ⟨⟨src.detail it, cur⟩ :: e.items, .detail (src.detail it) :: e.frags,
       it :: e.dcalls, e.dropn, e.cur⟩

/-- Outcome of a live ReMo fetch: emitted items, pushed cache fragments,
trace of requested pages, trace of detail calls, whether the cache queue
was purged, and the propagated error, if any. -/
structure ROutcome where
  items : List RItem
  frags : List RFrag
  pages : List Nat
  dcalls : List Nat
  purged : Bool
  err : Option PyErr
deriving DecidableEq, Repr

/-- Page loop of ReMo.fetch (remo.py lines 121-141) over
ReMoClient.get_items (lines 286-318).  Any transport error propagates
unchanged: the backend has no error handler.  After a successful page
the walker follows the page parameter embedded in the next URL, and
stops when the next field is empty (lines 312-318). -/
def rfetchGo (src : RSource) (cat : String) : Nat → Nat → Nat → Nat → Option ROutcome
  | 0, _, _, _ => none
  | fuel + 1, p, dropn, cur =>
    match rcall src cat p with
    | .error s => some ⟨[], [], [p], [], true, some (.http s)⟩
    | .ok pl =>
      let e := remoEmit src dropn cur pl.results
      match pl.next with
      | none => some ⟨e.items, .page pl :: e.frags, [p], e.dcalls, true, none⟩
      | some v =>
        (rfetchGo src cat fuel v e.dropn e.cur).map
          (fun o => ⟨e.items ++ o.items, .page pl :: (e.frags ++ o.frags),
                     p :: o.pages, e.dcalls ++ o.dcalls, true, o.err⟩)

/-- ReMo.fetch (remo.py lines 84-143): reject an unsupported category
with ValueError before touching the cache queue or the client, otherwise
purge the queue, push the offset and walk the pages from page
FIRST_PAGE + offset / ITEMS_PER_PAGE with the page-aligned drop
counter. -/
def remoFetch (src : RSource) (offset : Nat) (cat : String) (fuel : Nat) : Option ROutcome :=
  if cat ∈ ["activities", "events", "users"] then
    (rfetchGo src cat fuel (FIRST_PAGE + offset / IPP) (pageDrop offset) offset).map
      (fun o => { o with frags := .int offset :: o.frags })
  else
    some ⟨[], [], [], [], false, some .valueError⟩

/-- Loop of ReMo.fetch_from_cache (remo.py lines 164-178): an integer
fragment sets the offset and the next fragment is decoded in its place;
decoded payloads with a count key (pages) are skipped; any other decoded
payload is stamped with the offset, which is then advanced. -/
def rreplay : List RFrag → Option Nat → Except PyErr (List RItem)
  | [], _ => .ok []
  | [.int _], _ => .error .stopIteration
  | .int _ :: .int _ :: _, _ => .error .typeError
  | .int n :: .page _ :: r2, _ => rreplay r2 (some n)
  | .int n :: .detail d :: r2, _ =>
    (rreplay r2 (some (n + 1))).map (fun items => ⟨d, n⟩ :: items)
  | .page _ :: rest, off => rreplay rest off
  | .detail _ :: _, none => .error .unboundLocal
  | .detail d :: rest, some o =>
    (rreplay rest (some (o + 1))).map (fun items => ⟨d, o⟩ :: items)

/-- ReMo.fetch_from_cache (remo.py lines 145-181): CacheError when no
cache instance was provided, otherwise replay the retrieved
fragments. -/
def remoFetchFromCache : Option (List RFrag) → Except PyErr (List RItem)
  | none => .error .cacheError
  | some l => rreplay l none

/-! ## ReMo: item classifier -/

/-- Decoded ReMo item as seen by the classifier: the three
category-distinguishing fields, present or absent, and the remo_url
identifier field. -/
structure RMoItem where
  estimated_attendance : Option Nat
  activity : Option String
  first_name : Option String
  remo_url : String
deriving DecidableEq, Repr

/-- ReMo.metadata_id (remo.py lines 199-202): the identifier of a ReMo
item is its remo_url field. -/
def remoMetadataId (item : RMoItem) : String := item.remo_url

/-- Message of the TypeError the interpreter raises when the code
evaluates the string-plus-dict concatenation in the raise statement of
ReMo.metadata_category (remo.py line 244): building the intended message
itself fails, so the raised error never mentions the item. -/
def pyStrDictConcatMsg : String := "can only concatenate str (not \"dict\") to str"

/-- ReMo.metadata_category (remo.py lines 229-246): probe the
distinguishing fields in fixed priority order; when none is present the
raise statement evaluates a string-plus-dict concatenation, which itself
raises TypeError with the interpreter message. -/
def remoMetadataCategory (item : RMoItem) : Except PyErr String :=
  if item.estimated_attendance.isSome then .ok "event"
  else if item.activity.isSome then .ok "activity"
  else if item.first_name.isSome then .ok "user"
  else .error (.typeErrorStrConcat pyStrDictConcatMsg)

/-! ## Page walkers of the two clients, as page-number traces -/

/-- Trace of page numbers requested by KitsuneClient.get_questions
(kitsune.py lines 297-324) over an arbitrary transport: after a page
whose next field is non-empty the client increments its page counter;
it stops when the next field is empty, or when the request raises
(the generator dies). -/
def kWalkPages (t : Nat → Except Nat Payload) : Nat → Nat → List Nat
  | 0, _ => []
  | fuel + 1, p =>
    p :: match t p with
    | .error _ => []
    | .ok pl =>
      match pl.next with
      | none => []
      | some _ => kWalkPages t fuel (p + 1)

/-- Trace of page numbers requested by ReMoClient.get_items (remo.py
lines 286-318) over an arbitrary transport: after a page whose next
field is non-empty the client requests the page parameter extracted
from the next URL; it stops when the next field is empty, or when the
request raises. -/
def rWalkPages (t : Nat → Except Nat Payload) : Nat → Nat → List Nat
  | 0, _ => []
  | fuel + 1, p =>
    p :: match t p with
    | .error _ => []
    | .ok pl =>
      match pl.next with
      | none => []
      | some v => rWalkPages t fuel v

/-! ## Derived definitions used by the statements below -/

instance {ε α : Type _} [DecidableEq ε] [DecidableEq α] : DecidableEq (Except ε α) :=
  fun x y =>
    match x, y with
    | .error a, .error b =>
      if h : a = b then .isTrue (by rw [h]) else .isFalse (by simp [h])
    | .error _, .ok _ => .isFalse (by simp)
    | .ok _, .error _ => .isFalse (by simp)
    | .ok a, .ok b =>
      if h : a = b then .isTrue (by rw [h]) else .isFalse (by simp [h])

/-- Kitsune items stamped with consecutive offsets from a counter. -/
def kstamp (src : KSource) : Nat → List Nat → List KItem :=
  stampFrom (fun i q => ⟨q, i, src.answers q⟩)

/-- Items a clean Kitsune run emits from logical offset cur on: the
questions of the source from position cur, each stamped with its
position and carrying its full answers list. -/
def kitemsFrom (src : KSource) (cur : Nat) : List KItem :=
  kstamp src cur (src.questions.drop cur)

/-- ReMo items stamped with consecutive offsets from a counter. -/
def rstamp (src : RSource) : Nat → List Nat → List RItem :=
  stampFrom (fun i q => ⟨src.detail q, i⟩)

/-- Items a clean ReMo run emits from logical offset cur on: the detail
payloads of the listed items of the category from position cur, each
stamped with its position. -/
def ritemsFrom (src : RSource) (cat : String) (cur : Nat) : List RItem :=
  rstamp src cur ((src.lists cat).drop cur)

/-- Test for the offset-marker fragment kind. -/
def isMarker : KFrag → Bool
  | .int _ => true
  | _ => false

/-- Concrete Kitsune source of 45 questions, no answers, whose page 2
request fails with HTTP status 500; it exhibits runs with an
error-forced page skip. -/
def kSrc45fail500 : KSource :=
  ⟨List.range 45, fun _ => [], fun p => if p = 2 then some 500 else none⟩

/-- Concrete Kitsune source of 45 questions whose page 2 request fails
with HTTP status 503: a 5xx-class status that is not exactly 500. -/
def kSrc45fail503 : KSource :=
  ⟨List.range 45, fun _ => [], fun p => if p = 2 then some 503 else none⟩

/-- Concrete ReMo source of 45 items in every category whose page 2
request fails with HTTP status 500. -/
def rSrc45fail500 : RSource :=
  ⟨fun _ => List.range 45, fun d => d, fun p => if p = 2 then some 500 else none⟩

/-! ## Generic facts -/

theorem stampFrom_append (f : Nat → Nat → α) (c : Nat) (l m : List Nat) :
    stampFrom f c (l ++ m) = stampFrom f c l ++ stampFrom f (c + l.length) m := by
  induction l generalizing c with
  | nil => simp [stampFrom]
  | cons a l ih =>
    simp only [List.cons_append, stampFrom, List.length_cons, List.append_eq]
    rw [ih, show c + (l.length + 1) = c + 1 + l.length by omega]

theorem stampFrom_drop (f : Nat → Nat → α) (c k : Nat) (l : List Nat) :
    (stampFrom f c l).drop k = stampFrom f (c + k) (l.drop k) := by
  induction l generalizing c k with
  | nil => simp [stampFrom]
  | cons a l ih =>
    cases k with
    | zero => simp [stampFrom]
    | succ k =>
      simp only [stampFrom, List.drop_succ_cons, ih]
      rw [show c + 1 + k = c + (k + 1) by omega]

theorem stampFrom_length (f : Nat → Nat → α) (c : Nat) (l : List Nat) :
    (stampFrom f c l).length = l.length := by
  induction l generalizing c with
  | nil => rfl
  | cons a l ih => simp [stampFrom, ih]


theorem pageDrop_eq_mod (offset : Nat) : pageDrop offset = offset % IPP := by
  have := Nat.div_add_mod offset IPP
  unfold pageDrop IPP at *
  omega

/-- C2: for all offset and positive page size, the translation returns a
page p and drop d with 0 ≤ d < pageSize and
offset = (p - firstPage) * pageSize + d, where
p = firstPage + offset / pageSize (kitsune.py lines 104-110 and 297-303,
remo.py lines 109-112 and 291-292). -/
theorem translate_page_drop (offset pageSize firstPage : Nat) (h : 0 < pageSize) :
    (translate offset pageSize firstPage).1 = firstPage + offset / pageSize ∧
    (translate offset pageSize firstPage).2 < pageSize ∧
    offset = ((translate offset pageSize firstPage).1 - firstPage) * pageSize +
      (translate offset pageSize firstPage).2 := by
  have hdm := Nat.div_add_mod offset pageSize
  have hmlt : offset % pageSize < pageSize := Nat.mod_lt _ h
  have hcomm : offset / pageSize * pageSize = pageSize * (offset / pageSize) :=
    Nat.mul_comm _ _
  unfold translate
  refine ⟨rfl, ?_, ?_⟩
  · simp only
    omega
  · simp only [Nat.add_sub_cancel_left]
    omega

/-- Witness for translate_page_drop at offset 25, page size 20, first
page 1: the translation of the worked scenario of the specification. -/
theorem translate_page_drop_witness :
    0 < 20 ∧
    ((translate 25 20 1).1 = 1 + 25 / 20 ∧ (translate 25 20 1).2 < 20 ∧
      25 = ((translate 25 20 1).1 - 1) * 20 + (translate 25 20 1).2) :=
  ⟨by decide, translate_page_drop 25 20 1 (by decide)⟩

/-! ## Kitsune: closed form of the clean run -/

theorem emitPage_eq (src : KSource) (d cur : Nat) (l : List Nat) :
    emitPage src d cur l =
      ⟨kstamp src cur (l.drop d), ((l.drop d).map (ansBlock src)).flatten,
       d - min d l.length, cur + (l.length - d)⟩ := by
  induction l generalizing d cur with
  | nil =>
    simp [emitPage, kstamp, stampFrom]
  | cons q qs ih =>
    cases d with
    | zero =>
      simp only [emitPage, Nat.lt_irrefl, if_false, ih, List.drop_zero]
      simp [kstamp, stampFrom, KEmit.mk.injEq]
      omega
    | succ d2 =>
      simp only [emitPage, Nat.succ_sub_one, if_pos (Nat.succ_pos d2), ih,
        List.drop_succ_cons, List.length_cons, KEmit.mk.injEq]
      refine ⟨by trivial, by trivial, by omega, by omega⟩

theorem kclean_go (src : KSource) :
    ∀ fuel cur lost,
      (∀ p2, FIRST_PAGE + cur / IPP ≤ p2 → src.failPages p2 = none) →
      src.questions.length < fuel + cur → 0 < fuel →
      ∃ fr pg, kfetchGo src fuel (FIRST_PAGE + cur / IPP) (cur % IPP) cur lost =
        some ⟨kitemsFrom src cur, fr, pg, lost, none⟩ := by
  intro fuel
  induction fuel with
  | zero => intro cur lost _ _ h0; exact absurd h0 (by omega)
  | succ fuel ih =>
    intro cur lost hcl hf _
    have hc : src.failPages (FIRST_PAGE + cur / IPP) = none := hcl _ (Nat.le_refl _)
    simp only [kfetchGo, kcall, hc]
    simp only [emitPage_eq, FIRST_PAGE, IPP] at *
    simp only [Nat.add_sub_cancel_left]
    have hresults : ((src.questions.drop (cur / 20 * 20)).take 20).drop (cur % 20)
        = (src.questions.drop cur).take (20 - cur % 20) := by
      rw [List.drop_take, List.drop_drop]
      rw [show cur / 20 * 20 + cur % 20 = cur by omega]
    have hlen : ((src.questions.drop (cur / 20 * 20)).take 20).length
        = min 20 (src.questions.length - cur / 20 * 20) := by
      simp [List.length_take, List.length_drop]
    by_cases hnext : (1 + cur / 20) * 20 < src.questions.length
    · -- a further page exists: recurse at the aligned offset
      have hlen20 : ((src.questions.drop (cur / 20 * 20)).take 20).length = 20 := by
        rw [hlen]; omega
      rw [if_pos hnext]
      simp only []
      rw [hlen20]
      have hcur2 : cur + (20 - cur % 20) = cur / 20 * 20 + 20 := by omega
      have hpage2 : 1 + cur / 20 + 1 = 1 + (cur / 20 * 20 + 20) / 20 := by omega
      have hdrop2 : cur % 20 - min (cur % 20) 20 = (cur / 20 * 20 + 20) % 20 := by
        omega
      obtain ⟨fr, pg, hrec⟩ := ih (cur / 20 * 20 + 20) lost
        (by intro p2 hp2; refine hcl p2 ?_; omega)
        (by omega) (by omega)
      rw [hcur2, hpage2, hdrop2, hrec]
      -- items glue: the emitted page segment followed by the rest
      have hitems : kitemsFrom src cur
          = kstamp src cur ((src.questions.drop cur).take (20 - cur % 20))
            ++ kitemsFrom src (cur / 20 * 20 + 20) := by
        unfold kitemsFrom
        conv_lhs => rw [← List.take_append_drop (20 - cur % 20) (src.questions.drop cur)]
        rw [kstamp, stampFrom_append]
        have htklen : ((src.questions.drop cur).take (20 - cur % 20)).length
            = 20 - cur % 20 := by
          simp only [List.length_take, List.length_drop]
          omega
        rw [htklen, List.drop_drop, hcur2]
      simp only [Option.map_some']
      rw [hresults, hitems]
      exact ⟨_, _, rfl⟩
    · -- last page: everything remaining is emitted
      simp only [if_neg hnext]
      have hitems : kitemsFrom src cur
          = kstamp src cur ((src.questions.drop cur).take (20 - cur % 20)) := by
        unfold kitemsFrom
        rw [List.take_of_length_le]
        simp only [List.length_drop]
        omega
      rw [hresults, hitems]
      exact ⟨_, _, rfl⟩

/-! ## ReMo: closed form of the clean run -/

theorem remoEmit_eq (src : RSource) (d cur : Nat) (l : List Nat) :
    remoEmit src d cur l =
      ⟨rstamp src cur (l.drop d), (l.drop d).map (fun q => .detail (src.detail q)),
       l.drop d, d - min d l.length, cur + (l.length - d)⟩ := by
  induction l generalizing d cur with
  | nil =>
    simp [remoEmit, rstamp, stampFrom]
  | cons q qs ih =>
    cases d with
    | zero =>
      simp only [remoEmit, Nat.lt_irrefl, if_false, ih, List.drop_zero]
      simp [rstamp, stampFrom, REmit.mk.injEq]
      omega
    | succ d2 =>
      simp only [remoEmit, Nat.succ_sub_one, if_pos (Nat.succ_pos d2), ih,
        List.drop_succ_cons, List.length_cons, REmit.mk.injEq]
      refine ⟨by trivial, by trivial, by trivial, by omega, by omega⟩

theorem rclean_go (src : RSource) (cat : String) :
    ∀ fuel cur,
      (∀ p2, FIRST_PAGE + cur / IPP ≤ p2 → src.failPages p2 = none) →
      (src.lists cat).length < fuel + cur → 0 < fuel →
      ∃ fr pg dc, rfetchGo src cat fuel (FIRST_PAGE + cur / IPP) (cur % IPP) cur =
        some ⟨ritemsFrom src cat cur, fr, pg, dc, true, none⟩ := by
  intro fuel
  induction fuel with
  | zero => intro cur _ _ h0; exact absurd h0 (by omega)
  | succ fuel ih =>
    intro cur hcl hf _
    have hc : src.failPages (FIRST_PAGE + cur / IPP) = none := hcl _ (Nat.le_refl _)
    simp only [rfetchGo, rcall, hc]
    simp only [remoEmit_eq, FIRST_PAGE, IPP] at *
    simp only [Nat.add_sub_cancel_left]
    have hresults : (((src.lists cat).drop (cur / 20 * 20)).take 20).drop (cur % 20)
        = ((src.lists cat).drop cur).take (20 - cur % 20) := by
      rw [List.drop_take, List.drop_drop]
      rw [show cur / 20 * 20 + cur % 20 = cur by omega]
    have hlen : (((src.lists cat).drop (cur / 20 * 20)).take 20).length
        = min 20 ((src.lists cat).length - cur / 20 * 20) := by
      simp [List.length_take, List.length_drop]
    by_cases hnext : (1 + cur / 20) * 20 < (src.lists cat).length
    · have hlen20 : (((src.lists cat).drop (cur / 20 * 20)).take 20).length = 20 := by
        rw [hlen]; omega
      rw [if_pos hnext]
      simp only []
      rw [hlen20]
      have hcur2 : cur + (20 - cur % 20) = cur / 20 * 20 + 20 := by omega
      have hpage2 : 1 + cur / 20 + 1 = 1 + (cur / 20 * 20 + 20) / 20 := by omega
      have hdrop2 : cur % 20 - min (cur % 20) 20 = (cur / 20 * 20 + 20) % 20 := by
        omega
      obtain ⟨fr, pg, dc, hrec⟩ := ih (cur / 20 * 20 + 20)
        (by intro p2 hp2; refine hcl p2 ?_; omega)
        (by omega) (by omega)
      rw [hcur2, hpage2, hdrop2, hrec]
      have hitems : ritemsFrom src cat cur
          = rstamp src cur (((src.lists cat).drop cur).take (20 - cur % 20))
            ++ ritemsFrom src cat (cur / 20 * 20 + 20) := by
        unfold ritemsFrom
        conv_lhs => rw [← List.take_append_drop (20 - cur % 20) ((src.lists cat).drop cur)]
        rw [rstamp, stampFrom_append]
        have htklen : (((src.lists cat).drop cur).take (20 - cur % 20)).length
            = 20 - cur % 20 := by
          simp only [List.length_take, List.length_drop]
          omega
        rw [htklen, List.drop_drop, hcur2]
      simp only [Option.map_some']
      rw [hresults, hitems]
      exact ⟨_, _, _, rfl⟩
    · simp only [if_neg hnext]
      have hitems : ritemsFrom src cat cur
          = rstamp src cur (((src.lists cat).drop cur).take (20 - cur % 20)) := by
        unfold ritemsFrom
        rw [List.take_of_length_le]
        simp only [List.length_drop]
        omega
      rw [hresults, hitems]
      exact ⟨_, _, _, rfl⟩

/-! ## Claims C7 and C3 -/

/-- C7: on a source of 45 questions with page size 20, fetching from
offset 25 translates to page 2 with drop 5, requests pages 2 and 3,
emits the 15 remaining results of page 2 stamped 25..39 and the 5
results of page 3 stamped 40..44, and page 3 carries an empty next
cursor, terminating the walk. -/
theorem kitsune_scenario_offset25 :
    translate 25 IPP FIRST_PAGE = (2, 5) ∧
    (kitsuneFetch ⟨List.range 45, fun _ => [], fun _ => none⟩ 25 46).map
        (fun o => (o.pages, o.items.map KItem.offset, o.items.map KItem.qid, o.err)) =
      some ([2, 3], List.range' 25 20, List.range' 25 20, none) ∧
    kcall ⟨List.range 45, fun _ => [], fun _ => none⟩ 3 =
      .ok ⟨45, List.range' 40 5, none⟩ := by
  decide

theorem kitemsFrom_drop (src : KSource) (k : Nat) :
    kitemsFrom src k = (kitemsFrom src 0).drop k := by
  unfold kitemsFrom kstamp
  rw [stampFrom_drop, List.drop_zero, Nat.zero_add]

theorem ritemsFrom_drop (src : RSource) (cat : String) (k : Nat) :
    ritemsFrom src cat k = (ritemsFrom src cat 0).drop k := by
  unfold ritemsFrom rstamp
  rw [stampFrom_drop, List.drop_zero, Nat.zero_add]

/-- C3: over a deterministic remote source that never fails, fetching
from offset k emits exactly the items that fetching from offset 0 emits
after discarding the first k, with identical offset stamps, for both the
Kitsune and the ReMo backend. -/
theorem fetch_from_k_eq_fetch_drop_k :
    (∀ (src : KSource) (k fuelk fuel0 : Nat) (outk out0 : KOutcome),
      (∀ p, src.failPages p = none) →
      src.questions.length < fuelk → src.questions.length < fuel0 →
      kitsuneFetch src k fuelk = some outk →
      kitsuneFetch src 0 fuel0 = some out0 →
      outk.items = out0.items.drop k ∧ outk.err = none ∧ out0.err = none) ∧
    (∀ (src : RSource) (cat : String) (k fuelk fuel0 : Nat) (outk out0 : ROutcome),
      (∀ p, src.failPages p = none) →
      cat ∈ ["activities", "events", "users"] →
      (src.lists cat).length < fuelk → (src.lists cat).length < fuel0 →
      remoFetch src k cat fuelk = some outk →
      remoFetch src 0 cat fuel0 = some out0 →
      outk.items = out0.items.drop k ∧ outk.err = none ∧ out0.err = none) := by
  constructor
  · intro src k fuelk fuel0 outk out0 hclean hfk hf0 hk h0
    unfold kitsuneFetch at hk h0
    obtain ⟨frk, pgk, h1⟩ := kclean_go src fuelk k 0 (fun p _ => hclean p)
      (by omega) (by omega)
    obtain ⟨fr0, pg0, h2⟩ := kclean_go src fuel0 0 0 (fun p _ => hclean p)
      (by omega) (by omega)
    rw [pageDrop_eq_mod, h1, Option.map_some'] at hk
    rw [pageDrop_eq_mod, h2, Option.map_some'] at h0
    have hk2 := (Option.some.injEq _ _).mp hk
    have h02 := (Option.some.injEq _ _).mp h0
    rw [← hk2, ← h02]
    exact ⟨kitemsFrom_drop src k, rfl, rfl⟩
  · intro src cat k fuelk fuel0 outk out0 hclean hcat hfk hf0 hk h0
    unfold remoFetch at hk h0
    rw [if_pos hcat] at hk h0
    obtain ⟨frk, pgk, dck, h1⟩ := rclean_go src cat fuelk k (fun p _ => hclean p)
      (by omega) (by omega)
    obtain ⟨fr0, pg0, dc0, h2⟩ := rclean_go src cat fuel0 0 (fun p _ => hclean p)
      (by omega) (by omega)
    rw [pageDrop_eq_mod, h1, Option.map_some'] at hk
    rw [pageDrop_eq_mod, h2, Option.map_some'] at h0
    have hk2 := (Option.some.injEq _ _).mp hk
    have h02 := (Option.some.injEq _ _).mp h0
    rw [← hk2, ← h02]
    exact ⟨ritemsFrom_drop src cat k, rfl, rfl⟩

/-- Witness for fetch_from_k_eq_fetch_drop_k: a Kitsune source of three
questions fetched from offset 1 and from offset 0, and a ReMo events
source of three items fetched the same way. -/
theorem fetch_from_k_eq_fetch_drop_k_witness :
    ((∀ p, (⟨[10, 11, 12], fun q => [q * 2], fun _ => none⟩ : KSource).failPages p = none) ∧
      (kitsuneFetch ⟨[10, 11, 12], fun q => [q * 2], fun _ => none⟩ 1 9).isSome ∧
      (kitsuneFetch ⟨[10, 11, 12], fun q => [q * 2], fun _ => none⟩ 0 9).isSome ∧
      ((kitsuneFetch ⟨[10, 11, 12], fun q => [q * 2], fun _ => none⟩ 1 9).getD
          ⟨[], [], [], 0, none⟩).items =
        (((kitsuneFetch ⟨[10, 11, 12], fun q => [q * 2], fun _ => none⟩ 0 9).getD
          ⟨[], [], [], 0, none⟩).items).drop 1) ∧
    ((∀ p, (⟨fun c => if c = "events" then [5, 6, 7] else [], fun d => d + 100,
        fun _ => none⟩ : RSource).failPages p = none) ∧
      ((remoFetch ⟨fun c => if c = "events" then [5, 6, 7] else [], fun d => d + 100,
          fun _ => none⟩ 1 "events" 9).getD ⟨[], [], [], [], false, none⟩).items =
        (((remoFetch ⟨fun c => if c = "events" then [5, 6, 7] else [], fun d => d + 100,
          fun _ => none⟩ 0 "events" 9).getD ⟨[], [], [], [], false, none⟩).items).drop 1) := by
  refine ⟨⟨fun _ => rfl, by decide, by decide, ?_⟩, ⟨fun _ => rfl, ?_⟩⟩
  · exact (fetch_from_k_eq_fetch_drop_k.1 ⟨[10, 11, 12], fun q => [q * 2], fun _ => none⟩
      1 9 9 _ _ (fun _ => rfl) (by decide) (by decide) (by decide) (by decide)).1
  · exact (fetch_from_k_eq_fetch_drop_k.2 ⟨fun c => if c = "events" then [5, 6, 7] else [],
      fun d => d + 100, fun _ => none⟩ "events" 1 9 9 _ _ (fun _ => rfl) (by decide)
      (by decide) (by decide) (by decide) (by decide)).1

/-! ## Claim C1: replay yields exactly the live stream -/

theorem ansFrags_getAnswers :
    ∀ fuel (l : List Nat) (cnt p : Nat) (tail : List KFrag), l.length < fuel →
      getAnswers (ansFrags fuel cnt p l ++ .empty :: tail) = .ok (l, tail) := by
  intro fuel
  induction fuel with
  | zero => intro l _ _ _ h; omega
  | succ fuel ih =>
    intro l cnt p tail h
    by_cases h20 : IPP < l.length
    · rw [ansFrags, if_pos h20, List.cons_append, getAnswers]
      rw [ih (l.drop IPP) cnt (p + 1) tail
        (by simp only [List.length_drop]; unfold IPP at *; omega)]
      simp [Except.map, List.take_append_drop]
    · rw [ansFrags, if_neg h20]
      simp [getAnswers, Except.map]

theorem ansBlock_getAnswers (src : KSource) (q : Nat) (tail : List KFrag) :
    getAnswers (ansBlock src q ++ tail) = .ok (src.answers q, tail) := by
  unfold ansBlock
  rw [List.append_assoc, List.singleton_append]
  exact ansFrags_getAnswers _ _ _ _ _ (Nat.lt_succ_self _)

theorem kreplayQuestions_emit (src : KSource) :
    ∀ (results : List Nat) (d cur : Nat) (rest : List KFrag),
      kreplayQuestions results (some cur) (some d)
          ((emitPage src d cur results).frags ++ rest)
        = .ok ⟨(emitPage src d cur results).items, some (emitPage src d cur results).cur,
               some (emitPage src d cur results).dropn, rest⟩ := by
  intro results
  induction results with
  | nil => intro d cur rest; simp [emitPage, kreplayQuestions]
  | cons q qs ih =>
    intro d cur rest
    by_cases hd : 0 < d
    · simp only [kreplayQuestions, if_pos hd, emitPage]
      exact ih (d - 1) cur rest
    · have hd0 : d = 0 := by omega
      subst hd0
      simp only [kreplayQuestions, Nat.lt_irrefl, if_false, emitPage]
      rw [List.append_assoc, ansBlock_getAnswers]
      simp only []
      rw [ih 0 (cur + 1) rest]

theorem kcall_error_fail (src : KSource) (p s : Nat) (h : kcall src p = .error s) :
    src.failPages p = some s := by
  unfold kcall at h
  cases hfp : src.failPages p <;> rw [hfp] at h <;> simp_all

theorem kfetchGo_replay (src : KSource) (hno : ∀ p, src.failPages p ≠ some 500) :
    ∀ fuel p dropn cur lost out rfuel,
      kfetchGo src fuel p dropn cur lost = some out → out.err = none →
      out.frags.length < rfuel →
      kreplayGo rfuel out.frags (some cur) (some dropn) = .ok out.items := by
  intro fuel
  induction fuel with
  | zero => intro p d cur lost out rfuel h; simp [kfetchGo] at h
  | succ fuel ih =>
    intro p d cur lost out rfuel hout herr hlen
    rw [kfetchGo] at hout
    cases hkc : kcall src p with
    | error s =>
      rw [hkc] at hout
      simp only [] at hout
      by_cases h5 : s = 500
      · subst h5
        exact absurd (kcall_error_fail src p 500 hkc) (hno p)
      · rw [if_neg h5] at hout
        obtain rfl := (Option.some.injEq _ _).mp hout
        simp at herr
    | ok pl =>
      rw [hkc] at hout
      simp only [] at hout
      cases hnx : pl.next with
      | none =>
        rw [hnx] at hout
        simp only [] at hout
        obtain rfl := (Option.some.injEq _ _).mp hout
        cases rfuel with
        | zero => simp at hlen
        | succ rfuel2 =>
          rw [kreplayGo]
          simp only [kstep, kstepCore]
          have hq := kreplayQuestions_emit src pl.results d cur []
          rw [List.append_nil] at hq
          rw [hq]
          simp only []
          cases rfuel2 with
          | zero => simp at hlen
          | succ rfuel3 =>
            rw [kreplayGo]
            simp [kstep]
      | some v =>
        rw [hnx] at hout
        simp only [] at hout
        obtain ⟨o, ho, rfl⟩ := Option.map_eq_some'.mp hout
        simp only [] at herr
        cases rfuel with
        | zero => simp at hlen
        | succ rfuel2 =>
          rw [kreplayGo]
          simp only [kstep, kstepCore]
          rw [kreplayQuestions_emit src pl.results d cur o.frags]
          simp only []
          rw [ih (p + 1) (emitPage src d cur pl.results).dropn
            (emitPage src d cur pl.results).cur lost o rfuel2 ho herr
            (by simp at hlen; omega)]

theorem kreplayGo_marker (rfuel n : Nat) (pl : Payload) (X : List KFrag) :
    kreplayGo (rfuel + 1) (.int n :: .payload pl :: X) none none
      = kreplayGo (rfuel + 1) (.payload pl :: X) (some n) (some (pageDrop n)) := by
  rw [kreplayGo, kreplayGo]
  simp only [kstep]

theorem kfetchGo_shape (src : KSource) (hno : ∀ p, src.failPages p ≠ some 500) :
    ∀ fuel p dropn cur lost out,
      kfetchGo src fuel p dropn cur lost = some out → out.err = none →
      ∃ pl X, out.frags = .payload pl :: X := by
  intro fuel p dropn cur lost out hout herr
  cases fuel with
  | zero => simp [kfetchGo] at hout
  | succ fuel =>
    rw [kfetchGo] at hout
    cases hkc : kcall src p with
    | error s =>
      rw [hkc] at hout
      simp only [] at hout
      by_cases h5 : s = 500
      · subst h5
        exact absurd (kcall_error_fail src p 500 hkc) (hno p)
      · rw [if_neg h5] at hout
        obtain rfl := (Option.some.injEq _ _).mp hout
        simp at herr
    | ok pl =>
      rw [hkc] at hout
      simp only [] at hout
      cases hnx : pl.next with
      | none =>
        rw [hnx] at hout
        simp only [] at hout
        obtain rfl := (Option.some.injEq _ _).mp hout
        exact ⟨pl, _, rfl⟩
      | some v =>
        rw [hnx] at hout
        simp only [] at hout
        obtain ⟨o, _, rfl⟩ := Option.map_eq_some'.mp hout
        exact ⟨pl, _, rfl⟩

theorem rreplay_emit (src : RSource) :
    ∀ (results : List Nat) (d cur : Nat) (rest : List RFrag) (its : List RItem),
      rreplay rest (some (remoEmit src d cur results).cur) = .ok its →
      rreplay ((remoEmit src d cur results).frags ++ rest) (some cur)
        = .ok ((remoEmit src d cur results).items ++ its) := by
  intro results
  induction results with
  | nil =>
    intro d cur rest its h
    simpa [remoEmit] using h
  | cons q qs ih =>
    intro d cur rest its h
    by_cases hd : 0 < d
    · simp only [remoEmit, if_pos hd] at *
      exact ih (d - 1) cur rest its h
    · have hd0 : d = 0 := by omega
      subst hd0
      simp only [remoEmit, Nat.lt_irrefl, if_false] at *
      rw [List.cons_append, rreplay]
      rw [ih 0 (cur + 1) rest its h]
      rfl

theorem rfetchGo_replay (src : RSource) (cat : String) :
    ∀ fuel p dropn cur out,
      rfetchGo src cat fuel p dropn cur = some out → out.err = none →
      rreplay out.frags (some cur) = .ok out.items := by
  intro fuel
  induction fuel with
  | zero => intro p d cur out h; simp [rfetchGo] at h
  | succ fuel ih =>
    intro p d cur out hout herr
    rw [rfetchGo] at hout
    cases hkc : rcall src cat p with
    | error s =>
      rw [hkc] at hout
      obtain rfl := (Option.some.injEq _ _).mp hout
      simp at herr
    | ok pl =>
      rw [hkc] at hout
      simp only [] at hout
      cases hnx : pl.next with
      | none =>
        rw [hnx] at hout
        simp only [] at hout
        obtain rfl := (Option.some.injEq _ _).mp hout
        simp only [rreplay]
        have h0 : rreplay [] (some (remoEmit src d cur pl.results).cur) = .ok [] := rfl
        have := rreplay_emit src pl.results d cur [] [] h0
        rw [List.append_nil] at this
        rw [this, List.append_nil]
      | some v =>
        rw [hnx] at hout
        simp only [] at hout
        obtain ⟨o, ho, rfl⟩ := Option.map_eq_some'.mp hout
        simp only [] at herr
        simp only [rreplay]
        exact rreplay_emit src pl.results d cur o.frags o.items
          (ih v (remoEmit src d cur pl.results).dropn
            (remoEmit src d cur pl.results).cur o ho herr)

theorem rfetchGo_shape (src : RSource) (cat : String) :
    ∀ fuel p dropn cur out,
      rfetchGo src cat fuel p dropn cur = some out → out.err = none →
      ∃ pl X, out.frags = .page pl :: X := by
  intro fuel p dropn cur out hout herr
  cases fuel with
  | zero => simp [rfetchGo] at hout
  | succ fuel =>
    rw [rfetchGo] at hout
    cases hkc : rcall src cat p with
    | error s =>
      rw [hkc] at hout
      obtain rfl := (Option.some.injEq _ _).mp hout
      simp at herr
    | ok pl =>
      rw [hkc] at hout
      simp only [] at hout
      cases hnx : pl.next with
      | none =>
        rw [hnx] at hout
        simp only [] at hout
        obtain rfl := (Option.some.injEq _ _).mp hout
        exact ⟨pl, _, rfl⟩
      | some v =>
        rw [hnx] at hout
        simp only [] at hout
        obtain ⟨o, _, rfl⟩ := Option.map_eq_some'.mp hout
        exact ⟨pl, _, rfl⟩

/-- C1 amended: for every successful live run whose transport never
answers with a 500 on the Kitsune side, and for every successful live
ReMo run, replaying the cache fragments the run flushed yields exactly
the items the run emitted, in order, with the same offset stamps,
without any transport capability involved.  Runs that absorbed a 500
page skip are excluded: the skip leaves no offset marker in the ledger,
so their replay diverges (see the counterexample below and claim C5). -/
theorem live_replay_equivalence :
    (∀ (src : KSource) (offset fuel : Nat) (out : KOutcome),
      (∀ p, src.failPages p ≠ some 500) →
      kitsuneFetch src offset fuel = some out → out.err = none →
      kitsuneFetchFromCache (some out.frags) = .ok out.items) ∧
    (∀ (src : RSource) (offset fuel : Nat) (cat : String) (out : ROutcome),
      remoFetch src offset cat fuel = some out → out.err = none →
      remoFetchFromCache (some out.frags) = .ok out.items) := by
  constructor
  · intro src offset fuel out hno hout herr
    unfold kitsuneFetch at hout
    obtain ⟨og, hog, rfl⟩ := Option.map_eq_some'.mp hout
    simp only [] at herr ⊢
    obtain ⟨pl, X, hshape⟩ := kfetchGo_shape src hno fuel _ _ _ _ og hog herr
    have hsim := kfetchGo_replay src hno fuel _ _ _ _ og (og.frags.length + 2) hog herr
      (by omega)
    unfold kitsuneFetchFromCache
    simp only [List.length_cons]
    rw [hshape] at hsim ⊢
    exact (kreplayGo_marker _ offset pl X).trans hsim
  · intro src offset fuel cat out hout herr
    unfold remoFetch at hout
    by_cases hcat : cat ∈ ["activities", "events", "users"]
    · rw [if_pos hcat] at hout
      obtain ⟨og, hog, rfl⟩ := Option.map_eq_some'.mp hout
      simp only [] at herr ⊢
      obtain ⟨pl, X, hshape⟩ := rfetchGo_shape src cat fuel _ _ _ og hog herr
      have hsim := rfetchGo_replay src cat fuel _ _ _ og hog herr
      unfold remoFetchFromCache
      rw [hshape] at hsim ⊢
      simp only [rreplay] at hsim ⊢
      exact hsim
    · rw [if_neg hcat] at hout
      obtain rfl := (Option.some.injEq _ _).mp hout
      simp at herr

/-- Witness for live_replay_equivalence: a three-question Kitsune source
with answers and a three-item ReMo events source, both fetched live from
offset 1 and replayed from the resulting ledger. -/
theorem live_replay_equivalence_witness :
    ((∀ p, (⟨[10, 11, 12], fun q => [q * 2, q * 2 + 1], fun _ => none⟩ :
        KSource).failPages p ≠ some 500) ∧
      kitsuneFetch ⟨[10, 11, 12], fun q => [q * 2, q * 2 + 1], fun _ => none⟩ 1 9 =
        some ((kitsuneFetch ⟨[10, 11, 12], fun q => [q * 2, q * 2 + 1], fun _ => none⟩ 1 9).getD
          ⟨[], [], [], 0, none⟩) ∧
      kitsuneFetchFromCache (some ((kitsuneFetch ⟨[10, 11, 12],
          fun q => [q * 2, q * 2 + 1], fun _ => none⟩ 1 9).getD ⟨[], [], [], 0, none⟩).frags) =
        .ok ((kitsuneFetch ⟨[10, 11, 12], fun q => [q * 2, q * 2 + 1], fun _ => none⟩ 1 9).getD
          ⟨[], [], [], 0, none⟩).items) ∧
    (remoFetch ⟨fun c => if c = "events" then [5, 6, 7] else [], fun d => d + 100,
        fun _ => none⟩ 1 "events" 9 =
      some ((remoFetch ⟨fun c => if c = "events" then [5, 6, 7] else [], fun d => d + 100,
        fun _ => none⟩ 1 "events" 9).getD ⟨[], [], [], [], false, none⟩) ∧
      remoFetchFromCache (some ((remoFetch ⟨fun c => if c = "events" then [5, 6, 7] else [],
          fun d => d + 100, fun _ => none⟩ 1 "events" 9).getD
          ⟨[], [], [], [], false, none⟩).frags) =
        .ok ((remoFetch ⟨fun c => if c = "events" then [5, 6, 7] else [], fun d => d + 100,
          fun _ => none⟩ 1 "events" 9).getD ⟨[], [], [], [], false, none⟩).items) := by
  refine ⟨⟨fun _ h => by simp at h, by decide, ?_⟩, by decide, ?_⟩
  · exact live_replay_equivalence.1 ⟨[10, 11, 12], fun q => [q * 2, q * 2 + 1], fun _ => none⟩
      1 9 _ (fun _ h => by simp at h) (by decide) (by decide)
  · exact live_replay_equivalence.2 ⟨fun c => if c = "events" then [5, 6, 7] else [],
      fun d => d + 100, fun _ => none⟩ 1 9 "events" _ (by decide) (by decide)

/-- C1 counterexample: over the 45-question source whose page 2 request
fails with 500, the live run completes successfully (no error is
surfaced; 20 questions are silently recorded as lost) and emits items
stamped 0..19 and 40..44, but replaying the very ledger it wrote yields
items stamped 0..24: no offset marker recorded the skip, so the replay
decoder re-stamps contiguously and the replayed stream differs from the
live output. -/
theorem replay_differs_after_skip :
    (kitsuneFetch kSrc45fail500 0 10).isSome ∧
    ((kitsuneFetch kSrc45fail500 0 10).getD ⟨[], [], [], 0, none⟩).err = none ∧
    ((kitsuneFetch kSrc45fail500 0 10).getD ⟨[], [], [], 0, none⟩).items.map KItem.offset =
      List.range 20 ++ List.range' 40 5 ∧
    (kitsuneFetchFromCache
        (some ((kitsuneFetch kSrc45fail500 0 10).getD ⟨[], [], [], 0, none⟩).frags)).map
        (fun items => items.map KItem.offset) = .ok (List.range 25) ∧
    kitsuneFetchFromCache
        (some ((kitsuneFetch kSrc45fail500 0 10).getD ⟨[], [], [], 0, none⟩).frags) ≠
      .ok ((kitsuneFetch kSrc45fail500 0 10).getD ⟨[], [], [], 0, none⟩).items := by
  decide

/-! ## Claim C6: when replay raises CacheError -/

theorem getAnswers_ne_cacheError : ∀ l, getAnswers l ≠ .error .cacheError := by
  intro l
  induction l with
  | nil => simp [getAnswers]
  | cons f rest ih =>
    cases f with
    | int n => simp [getAnswers]
    | empty => simp [getAnswers]
    | payload pl =>
      rw [getAnswers]
      cases hh : getAnswers rest with
      | error e =>
        simp only [Except.map]
        intro hc
        exact ih (hh.trans hc)
      | ok r => simp [Except.map]

theorem kreplayQuestions_ne_cacheError :
    ∀ qs off dr rest, kreplayQuestions qs off dr rest ≠ .error .cacheError := by
  intro qs
  induction qs with
  | nil => intro off dr rest; simp [kreplayQuestions]
  | cons q qs ih =>
    intro off dr rest
    cases dr with
    | none => simp [kreplayQuestions]
    | some d =>
      by_cases hd : 0 < d
      · simp only [kreplayQuestions, if_pos hd]
        exact ih off (some (d - 1)) rest
      · cases off with
        | none => simp [kreplayQuestions, if_neg hd]
        | some o =>
          simp only [kreplayQuestions, if_neg hd]
          cases hg : getAnswers rest with
          | error e =>
            simp only []
            intro hc
            have he : e = PyErr.cacheError := (Except.error.injEq _ _).mp hc
            exact getAnswers_ne_cacheError rest (he ▸ hg)
          | ok g =>
            simp only []
            cases hq : kreplayQuestions qs (some (o + 1)) (some d) g.2 with
            | error e =>
              simp only []
              intro hc
              exact ih _ _ _ (hq.trans hc)
            | ok r => simp

theorem kstepCore_ne_cacheError (raw : KFrag) (rest : List KFrag) (off dr : Option Nat) :
    kstepCore raw rest off dr ≠ .error .cacheError := by
  cases raw with
  | int n => simp [kstepCore]
  | payload pl => simp [kstepCore]
  | empty =>
    unfold kstepCore
    cases rest with
    | nil => simp
    | cons g r3 => cases g <;> simp

theorem kstep_ne_cacheError (l : List KFrag) (off dr : Option Nat) :
    kstep l off dr ≠ .error .cacheError := by
  match l with
  | [] => simp [kstep]
  | [.int _] => simp [kstep]
  | .int n :: g :: r2 =>
    rw [kstep]
    exact kstepCore_ne_cacheError g r2 _ _
  | .payload pl :: rest =>
    rw [kstep]
    exact kstepCore_ne_cacheError _ rest off dr
  | .empty :: rest =>
    rw [kstep]
    exact kstepCore_ne_cacheError _ rest off dr

theorem kreplayGo_ne_cacheError :
    ∀ fuel l off dr, kreplayGo fuel l off dr ≠ .error .cacheError := by
  intro fuel
  induction fuel with
  | zero => intro l off dr; simp [kreplayGo]
  | succ fuel ih =>
    intro l off dr
    rw [kreplayGo]
    cases hs : kstep l off dr with
    | error e =>
      simp only []
      intro hc
      rw [(Except.error.injEq _ _).mp hc] at hs
      exact kstep_ne_cacheError l off dr hs
    | ok st =>
      cases st with
      | none => simp
      | some st =>
        simp only []
        cases hq : kreplayQuestions st.1 st.2.1 st.2.2.1 st.2.2.2 with
        | error e =>
          simp only []
          intro hc
          rw [(Except.error.injEq _ _).mp hc] at hq
          exact kreplayQuestions_ne_cacheError _ _ _ _ hq
        | ok r =>
          simp only []
          cases hr : kreplayGo fuel r.rest r.off r.dr with
          | error e =>
            simp only []
            intro hc
            rw [(Except.error.injEq _ _).mp hc] at hr
            exact ih _ _ _ hr
          | ok items => simp

theorem rreplay_ne_cacheError :
    ∀ n (l : List RFrag) off, l.length ≤ n → rreplay l off ≠ .error .cacheError := by
  intro n
  induction n with
  | zero =>
    intro l off hl
    match l with
    | [] => simp [rreplay]
    | f :: rest => simp at hl
  | succ n ih =>
    intro l off hl
    match l with
    | [] => simp [rreplay]
    | [.int m] => simp [rreplay]
    | .int m :: .int m2 :: r2 => simp [rreplay]
    | .int m :: .page pl :: r2 =>
      exact ih r2 (some m) (by simp at hl ⊢; omega)
    | .int m :: .detail d :: r2 =>
      show (rreplay r2 (some (m + 1))).map (fun items => (⟨d, m⟩ : RItem) :: items) ≠ _
      cases hr : rreplay r2 (some (m + 1)) with
      | error e =>
        simp only [Except.map]
        intro hc
        have he : e = PyErr.cacheError := (Except.error.injEq _ _).mp hc
        exact ih r2 (some (m + 1)) (by simp at hl ⊢; omega) (he ▸ hr)
      | ok items => simp [Except.map]
    | .page pl :: rest =>
      exact ih rest off (by simp at hl ⊢; omega)
    | .detail d :: rest =>
      cases off with
      | none => simp [rreplay]
      | some o =>
        show (rreplay rest (some (o + 1))).map (fun items => (⟨d, o⟩ : RItem) :: items) ≠ _
        cases hr : rreplay rest (some (o + 1)) with
        | error e =>
          simp only [Except.map]
          intro hc
          have he : e = PyErr.cacheError := (Except.error.injEq _ _).mp hc
          exact ih rest (some (o + 1)) (by simp at hl ⊢; omega) (he ▸ hr)
        | ok items => simp [Except.map]

/-- C6 counterexample: a ledger whose first fragment is a page payload
rather than an offset marker does not make replay fail with CacheError:
the Kitsune replay dies with UnboundLocalError when it reads the never
assigned drop counter, and the ReMo replay silently skips the page and
succeeds with an empty stream. -/
theorem replay_nonmarker_first_not_cacheError :
    kitsuneFetchFromCache (some [.payload ⟨1, [7], none⟩]) = .error .unboundLocal ∧
    remoFetchFromCache (some [.page ⟨1, [7], none⟩]) = .ok [] ∧
    (Except.error .unboundLocal : Except PyErr (List KItem)) ≠ .error .cacheError := by
  decide

/-- C6 amended: replay fails with CacheError exactly when no cache
instance exists; no content of the ledger, in particular a first
fragment that is not an offset marker, ever produces CacheError
(kitsune.py lines 200-219, remo.py lines 157-168). -/
theorem replay_cacheError_iff :
    (∀ c, kitsuneFetchFromCache c = .error .cacheError ↔ c = none) ∧
    (∀ c, remoFetchFromCache c = .error .cacheError ↔ c = none) := by
  constructor
  · intro c
    cases c with
    | none => simp [kitsuneFetchFromCache]
    | some l =>
      simp only [kitsuneFetchFromCache]
      constructor
      · intro hcontra
        exact absurd hcontra (kreplayGo_ne_cacheError _ _ _ _)
      · intro hh; exact absurd hh (by simp)
  · intro c
    cases c with
    | none => simp [remoFetchFromCache]
    | some l =>
      simp only [remoFetchFromCache]
      constructor
      · intro hcontra
        exact absurd hcontra (rreplay_ne_cacheError l.length l none (Nat.le_refl _))
      · intro hh; exact absurd hh (by simp)

/-- Witness for replay_cacheError_iff: the missing cache raises
CacheError for both backends, and a one-page ledger does not. -/
theorem replay_cacheError_iff_witness :
    kitsuneFetchFromCache none = .error .cacheError ∧
    remoFetchFromCache none = .error .cacheError ∧
    ¬kitsuneFetchFromCache (some [.payload ⟨1, [7], none⟩]) = .error .cacheError :=
  ⟨(replay_cacheError_iff.1 none).mpr rfl, (replay_cacheError_iff.2 none).mpr rfl,
   fun h => by simpa using (replay_cacheError_iff.1 (some [.payload ⟨1, [7], none⟩])).mp h⟩

/-! ## Claim C5: offset markers written to the ledger -/

theorem ansFrags_no_marker : ∀ fuel cnt p l, ((ansFrags fuel cnt p l).countP isMarker) = 0 := by
  intro fuel
  induction fuel with
  | zero => intro cnt p l; simp [ansFrags]
  | succ fuel ih =>
    intro cnt p l
    rw [ansFrags]
    by_cases h20 : IPP < l.length
    · rw [if_pos h20]
      simp [List.countP_cons, isMarker, ih]
    · rw [if_neg h20]
      simp [List.countP_cons, isMarker]

theorem ansBlock_no_marker (src : KSource) (q : Nat) :
    (ansBlock src q).countP isMarker = 0 := by
  unfold ansBlock
  rw [List.countP_append, ansFrags_no_marker]
  simp [List.countP_cons, isMarker]

theorem emitPage_no_marker (src : KSource) :
    ∀ l d cur, ((emitPage src d cur l).frags).countP isMarker = 0 := by
  intro l
  induction l with
  | nil => intro d cur; simp [emitPage]
  | cons q qs ih =>
    intro d cur
    rw [emitPage]
    by_cases hd : 0 < d
    · rw [if_pos hd]; exact ih (d - 1) cur
    · rw [if_neg hd]
      simp only [List.countP_append, ansBlock_no_marker, ih]

theorem kfetchGo_no_marker (src : KSource) :
    ∀ fuel p d cur lost out, kfetchGo src fuel p d cur lost = some out →
      (out.frags).countP isMarker = 0 := by
  intro fuel
  induction fuel with
  | zero => intro p d cur lost out h; simp [kfetchGo] at h
  | succ fuel ih =>
    intro p d cur lost out hout
    rw [kfetchGo] at hout
    cases hkc : kcall src p with
    | error s =>
      rw [hkc] at hout
      simp only [] at hout
      by_cases h5 : s = 500
      · rw [if_pos h5] at hout
        obtain ⟨o, ho, rfl⟩ := Option.map_eq_some'.mp hout
        simpa using ih _ _ _ _ o ho
      · rw [if_neg h5] at hout
        obtain rfl := (Option.some.injEq _ _).mp hout
        simp
    | ok pl =>
      rw [hkc] at hout
      simp only [] at hout
      cases hnx : pl.next with
      | none =>
        rw [hnx] at hout
        simp only [] at hout
        obtain rfl := (Option.some.injEq _ _).mp hout
        simp only [List.countP_cons, emitPage_no_marker]
        simp [isMarker]
      | some v =>
        rw [hnx] at hout
        simp only [] at hout
        obtain ⟨o, ho, rfl⟩ := Option.map_eq_some'.mp hout
        simp only [List.countP_cons, List.countP_append, emitPage_no_marker, ih _ _ _ _ o ho]
        simp [isMarker]

/-- C5 counterexample: a live Kitsune run over 45 questions whose page 2
request fails with 500 completes with 20 questions recorded as lost (one
page was skipped and the emitted offsets jump from 19 to 40), yet the
ledger holds exactly one offset marker: no fresh marker was appended for
the error-forced skip. -/
theorem skip_appends_no_marker :
    (kitsuneFetch kSrc45fail500 0 10).map
      (fun o => (o.lost, o.err, o.frags.countP isMarker, o.items.map KItem.offset)) =
      some (20, none, 1, List.range 20 ++ List.range' 40 5) := by
  decide

/-- C5 amended: every completed live Kitsune fetch writes exactly one
offset marker to the cache queue, the one pushed at run start; no marker
is appended when a 500 error forces a page skip (kitsune.py lines 96-98
and 119-129). -/
theorem offset_marker_exactly_once (src : KSource) (offset fuel : Nat) (out : KOutcome)
    (h : kitsuneFetch src offset fuel = some out) :
    (out.frags).countP isMarker = 1 := by
  unfold kitsuneFetch at h
  obtain ⟨o, ho, rfl⟩ := Option.map_eq_some'.mp h
  simp only [List.countP_cons, kfetchGo_no_marker src fuel _ _ _ _ o ho]
  simp [isMarker]

/-- Witness for offset_marker_exactly_once: the 45-question source with
a failing page 2, fetched from offset 0. -/
theorem offset_marker_exactly_once_witness :
    kitsuneFetch kSrc45fail500 0 10 =
      some ((kitsuneFetch kSrc45fail500 0 10).getD ⟨[], [], [], 0, none⟩) ∧
    (((kitsuneFetch kSrc45fail500 0 10).getD ⟨[], [], [], 0, none⟩).frags).countP
        isMarker = 1 := by
  refine ⟨by decide, ?_⟩
  exact offset_marker_exactly_once kSrc45fail500 0 10 _ (by decide)

/-! ## Claim C4: transient-error handling -/

theorem kfail_go (src : KSource) (f s : Nat)
    (hfail : src.failPages = fun p => if p = f then some s else none) :
    ∀ fuel cur lost,
      FIRST_PAGE + cur / IPP ≤ f →
      (f - 1) * IPP < src.questions.length →
      src.questions.length + f * IPP + 2 ≤ fuel + cur →
      ∃ fr pg, kfetchGo src fuel (FIRST_PAGE + cur / IPP) (cur % IPP) cur lost =
        some ⟨(kitemsFrom src cur).take (max cur ((f - 1) * IPP) - cur)
                ++ (if s = 500 then kitemsFrom src (max cur ((f - 1) * IPP) + IPP) else []),
              fr, pg, lost + (if s = 500 then IPP else 0),
              if s = 500 then none else some (.http s)⟩ := by
  intro fuel
  induction fuel with
  | zero =>
    intro cur lost hp hn hb
    exfalso
    simp only [FIRST_PAGE, IPP] at *
    omega
  | succ fuel ih =>
    intro cur lost hp hn hb
    by_cases hpf : FIRST_PAGE + cur / IPP = f
    · -- the requested page is the failing one
      have hcall : kcall src (FIRST_PAGE + cur / IPP) = .error s := by
        simp [kcall, hfail, hpf]
      rw [kfetchGo, hcall]
      simp only []
      have hmax : max cur ((f - 1) * IPP) = cur := by
        simp only [FIRST_PAGE, IPP] at *
        omega
      by_cases hs : s = 500
      · subst hs
        rw [if_pos rfl]
        have hcl2 : ∀ p2, FIRST_PAGE + (cur + IPP) / IPP ≤ p2 →
            src.failPages p2 = none := by
          intro p2 hp2
          rw [hfail]
          simp only [FIRST_PAGE, IPP] at *
          have hne : ¬p2 = f := by omega
          simp [hne]
        have hmod : cur % IPP = (cur + IPP) % IPP := by
          simp only [IPP]; omega
        rw [hmod]
        obtain ⟨fr, pg, hrec⟩ := kclean_go src fuel (cur + IPP) (lost + IPP) hcl2
          (by simp only [FIRST_PAGE, IPP] at *; omega)
          (by simp only [FIRST_PAGE, IPP] at *; omega)
        rw [hrec]
        simp only [Option.map_some']
        rw [hmax]
        refine ⟨fr, (FIRST_PAGE + cur / IPP) :: pg, ?_⟩
        simp
      · rw [if_neg hs]
        refine ⟨[], [FIRST_PAGE + cur / IPP], ?_⟩
        rw [hmax]
        simp [hs]
    · -- a page before the failing one: it behaves cleanly
      have hc : src.failPages (FIRST_PAGE + cur / IPP) = none := by
        rw [hfail]; simp [hpf]
      simp only [kfetchGo, kcall, hc]
      simp only [emitPage_eq, FIRST_PAGE, IPP] at *
      simp only [Nat.add_sub_cancel_left]
      have hresults : ((src.questions.drop (cur / 20 * 20)).take 20).drop (cur % 20)
          = (src.questions.drop cur).take (20 - cur % 20) := by
        rw [List.drop_take, List.drop_drop]
        rw [show cur / 20 * 20 + cur % 20 = cur by omega]
      have hlen20 : ((src.questions.drop (cur / 20 * 20)).take 20).length = 20 := by
        simp only [List.length_take, List.length_drop]
        omega
      have hnext : (1 + cur / 20) * 20 < src.questions.length := by omega
      rw [if_pos hnext]
      simp only []
      rw [hlen20]
      have hcur2 : cur + (20 - cur % 20) = cur / 20 * 20 + 20 := by omega
      have hpage2 : 1 + cur / 20 + 1 = 1 + (cur / 20 * 20 + 20) / 20 := by omega
      have hdrop2 : cur % 20 - min (cur % 20) 20 = (cur / 20 * 20 + 20) % 20 := by omega
      obtain ⟨fr, pg, hrec⟩ := ih (cur / 20 * 20 + 20) lost
        (by omega) hn (by omega)
      rw [hcur2, hpage2, hdrop2, hrec]
      have hM : max cur ((f - 1) * 20) = (f - 1) * 20 := by omega
      have hM2 : max (cur / 20 * 20 + 20) ((f - 1) * 20) = (f - 1) * 20 := by omega
      rw [hM2]
      have hitems : kitemsFrom src cur
          = kstamp src cur ((src.questions.drop cur).take (20 - cur % 20))
            ++ kitemsFrom src (cur / 20 * 20 + 20) := by
        unfold kitemsFrom
        conv_lhs => rw [← List.take_append_drop (20 - cur % 20) (src.questions.drop cur)]
        rw [kstamp, stampFrom_append]
        have htklen : ((src.questions.drop cur).take (20 - cur % 20)).length
            = 20 - cur % 20 := by
          simp only [List.length_take, List.length_drop]
          omega
        rw [htklen, List.drop_drop, hcur2]
      have hlenseg : (kstamp src cur ((src.questions.drop cur).take (20 - cur % 20))).length
          = 20 - cur % 20 := by
        rw [kstamp, stampFrom_length]
        simp only [List.length_take, List.length_drop]
        omega
      have hsplit : (kitemsFrom src cur).take ((f - 1) * 20 - cur)
          = kstamp src cur ((src.questions.drop cur).take (20 - cur % 20))
            ++ (kitemsFrom src (cur / 20 * 20 + 20)).take
                ((f - 1) * 20 - (cur / 20 * 20 + 20)) := by
        rw [hitems, List.take_append_eq_append_take]
        rw [List.take_of_length_le (by rw [hlenseg]; omega)]
        rw [hlenseg]
        have harith : (f - 1) * 20 - cur - (20 - cur % 20)
            = (f - 1) * 20 - (cur / 20 * 20 + 20) := by omega
        rw [harith]
      simp only [Option.map_some']
      rw [hM, hresults, hsplit, List.append_assoc]
      exact ⟨_, _, rfl⟩

/-- C4 amended: during a live Kitsune fetch over a source whose page f
request fails with status s, the run skips one page of logical offsets
and counts exactly one page of questions as lost when and only when s is
exactly 500; any other status, 5xx or not, terminates the run with that
error propagated and nothing counted as lost.  A ReMo page request that
fails with any status, 500 included, terminates the run immediately with
the error propagated: ReMo has no recovery path at all. -/
theorem transient_error_exactly_500 :
    (∀ (src : KSource) (f s offset fuel : Nat),
      src.failPages = (fun p => if p = f then some s else none) →
      FIRST_PAGE + offset / IPP ≤ f →
      (f - 1) * IPP < src.questions.length →
      src.questions.length + f * IPP + 2 ≤ fuel + offset →
      ∃ fr pg, kitsuneFetch src offset fuel =
        some ⟨(kitemsFrom src offset).take (max offset ((f - 1) * IPP) - offset)
                ++ (if s = 500 then kitemsFrom src (max offset ((f - 1) * IPP) + IPP)
                    else []),
              fr, pg, if s = 500 then IPP else 0,
              if s = 500 then none else some (.http s)⟩) ∧
    (∀ (src : RSource) (cat : String) (fuel p dropn cur s : Nat),
      rcall src cat p = .error s →
      rfetchGo src cat (fuel + 1) p dropn cur =
        some ⟨[], [], [p], [], true, some (.http s)⟩) := by
  constructor
  · intro src f s offset fuel hfail hp hn hb
    obtain ⟨fr, pg, h⟩ := kfail_go src f s hfail fuel offset 0 hp hn hb
    unfold kitsuneFetch
    rw [pageDrop_eq_mod, h]
    simp only [Option.map_some']
    refine ⟨KFrag.int offset :: fr, pg, ?_⟩
    simp
  · intro src cat fuel p dropn cur s h
    rw [rfetchGo, h]

/-- C4 counterexample: a 503 response is in the 5xx class, yet the live
Kitsune run over the 45-question source failing on page 2 terminates
with the error propagated and zero items counted as lost instead of
skipping the page; and a ReMo run hitting a 500 on page 2 also
terminates with the error propagated rather than skipping the page. -/
theorem transient_5xx_not_skipped :
    (500 ≤ 503 ∧ 503 < 600) ∧
    (kitsuneFetch kSrc45fail503 0 10).map
      (fun o => (o.items.map KItem.offset, o.lost, o.err)) =
      some (List.range 20, 0, some (.http 503)) ∧
    (remoFetch rSrc45fail500 0 "events" 10).map
      (fun o => (o.items.map RItem.offset, o.err)) =
      some (List.range 20, some (.http 500)) := by
  decide

/-- Witness for transient_error_exactly_500: the 45-question source with
page 2 failing with 500, fetched from offset 0 with sufficient fuel. -/
theorem transient_error_exactly_500_witness :
    (kSrc45fail500.failPages = (fun p => if p = 2 then some 500 else none) ∧
      FIRST_PAGE + 0 / IPP ≤ 2 ∧ (2 - 1) * IPP < kSrc45fail500.questions.length ∧
      kSrc45fail500.questions.length + 2 * IPP + 2 ≤ 87 + 0) ∧
    (∃ fr pg, kitsuneFetch kSrc45fail500 0 87 =
      some ⟨(kitemsFrom kSrc45fail500 0).take (max 0 ((2 - 1) * IPP) - 0)
              ++ (if 500 = 500 then kitemsFrom kSrc45fail500 (max 0 ((2 - 1) * IPP) + IPP)
                  else []),
            fr, pg, if 500 = 500 then IPP else 0,
            if 500 = 500 then none else some (.http 500)⟩) := by
  refine ⟨⟨rfl, by decide, by decide, by decide⟩, ?_⟩
  exact transient_error_exactly_500.1 kSrc45fail500 2 500 0 87 rfl
    (by decide) (by decide) (by decide)

/-! ## Claim C8: item classification -/

/-- C8 counterexample: for an item with none of the distinguishing
fields, classification raises the TypeError coming from the failed
string-plus-dict concatenation, not an error whose message names the
item identifier; the raised error does not equal a classification error
carrying the identifier of the item. -/
theorem classification_failure_names_no_identifier :
    remoMetadataCategory ⟨none, none, none, "42"⟩ =
      .error (.typeErrorStrConcat pyStrDictConcatMsg) ∧
    (Except.error (.typeErrorStrConcat pyStrDictConcatMsg) : Except PyErr String) ≠
      .error (.classificationError (remoMetadataId ⟨none, none, none, "42"⟩)) := by
  decide

/-- C8 amended: metadata_category probes estimated_attendance, activity
and first_name in that fixed priority order and returns event, activity
or user; when none of the fields is present the raise statement itself
fails while concatenating the message string with the item dict, so the
run dies with the interpreter TypeError and the offending item
identifier is never named (remo.py lines 229-246). -/
theorem metadata_category_probing (it : RMoItem) :
    (it.estimated_attendance.isSome = true → remoMetadataCategory it = .ok "event") ∧
    (it.estimated_attendance = none → it.activity.isSome = true →
      remoMetadataCategory it = .ok "activity") ∧
    (it.estimated_attendance = none → it.activity = none → it.first_name.isSome = true →
      remoMetadataCategory it = .ok "user") ∧
    (it.estimated_attendance = none → it.activity = none → it.first_name = none →
      remoMetadataCategory it = .error (.typeErrorStrConcat pyStrDictConcatMsg)) := by
  refine ⟨?_, ?_, ?_, ?_⟩ <;> intros <;> simp_all [remoMetadataCategory]

/-- Witness for metadata_category_probing: the field-less item of the
counterexample together with an event item carrying
estimated_attendance. -/
theorem metadata_category_probing_witness :
    ((⟨none, none, none, "42"⟩ : RMoItem).estimated_attendance = none ∧
      (⟨none, none, none, "42"⟩ : RMoItem).activity = none ∧
      (⟨none, none, none, "42"⟩ : RMoItem).first_name = none ∧
      remoMetadataCategory ⟨none, none, none, "42"⟩ =
        .error (.typeErrorStrConcat pyStrDictConcatMsg)) ∧
    ((⟨some 30, none, none, "e1"⟩ : RMoItem).estimated_attendance.isSome = true ∧
      remoMetadataCategory ⟨some 30, none, none, "e1"⟩ = .ok "event") :=
  ⟨⟨rfl, rfl, rfl,
    (metadata_category_probing ⟨none, none, none, "42"⟩).2.2.2 rfl rfl rfl⟩,
   ⟨rfl, (metadata_category_probing ⟨some 30, none, none, "e1"⟩).1 rfl⟩⟩

/-! ## Claim C9: next-cursor handling in the page walkers -/

/-- C9 counterexample: over a transport whose page 1 carries a next
cursor embedding page 7, the ReMo walker requests page 7 next, but the
Kitsune walker ignores the embedded page parameter and requests page 2:
the claim that the page walker extracts the embedded page parameter is
false for the Kitsune client. -/
theorem kitsune_walker_ignores_next_url :
    kWalkPages (fun p => .ok ⟨0, [p], if p = 1 then some 7 else none⟩) 3 1 = [1, 2] ∧
    rWalkPages (fun p => .ok ⟨0, [p], if p = 1 then some 7 else none⟩) 3 1 = [1, 7] ∧
    kWalkPages (fun p => .ok ⟨0, [p], if p = 1 then some 7 else none⟩) 3 1 ≠ [1, 7] := by
  decide

/-- C9 amended: after a page whose decoded next field carries an
embedded page number, the ReMo walker requests exactly that page while
the Kitsune walker requests the incremented page number, ignoring the
cursor content; both walkers stop exactly when the next field is empty
or absent (remo.py lines 303-318, kitsune.py lines 307-324). -/
theorem next_cursor_handling (t : Nat → Except Nat Payload) (p fuel : Nat) (pl : Payload)
    (ht : t p = .ok pl) :
    (∀ v, pl.next = some v →
      rWalkPages t (fuel + 1) p = p :: rWalkPages t fuel v ∧
      kWalkPages t (fuel + 1) p = p :: kWalkPages t fuel (p + 1)) ∧
    (pl.next = none →
      rWalkPages t (fuel + 1) p = [p] ∧ kWalkPages t (fuel + 1) p = [p]) := by
  constructor
  · intro v hv
    constructor
    · rw [rWalkPages, ht]
      simp only []
      rw [hv]
    · rw [kWalkPages, ht]
      simp only []
      rw [hv]
  · intro hv
    constructor
    · rw [rWalkPages, ht]
      simp only []
      rw [hv]
    · rw [kWalkPages, ht]
      simp only []
      rw [hv]

/-- Witness for next_cursor_handling at the lying transport of the
counterexample: page 1 answers with a next cursor embedding page 7. -/
theorem next_cursor_handling_witness :
    ((fun p => .ok ⟨0, [p], if p = 1 then some 7 else none⟩) 1
        = (.ok ⟨0, [1], some 7⟩ : Except Nat Payload) ∧
      (⟨0, [1], some 7⟩ : Payload).next = some 7) ∧
    (rWalkPages (fun p => .ok ⟨0, [p], if p = 1 then some 7 else none⟩) 3 1
        = 1 :: rWalkPages (fun p => .ok ⟨0, [p], if p = 1 then some 7 else none⟩) 2 7 ∧
      kWalkPages (fun p => .ok ⟨0, [p], if p = 1 then some 7 else none⟩) 3 1
        = 1 :: kWalkPages (fun p => .ok ⟨0, [p], if p = 1 then some 7 else none⟩) 2 2) := by
  refine ⟨⟨by decide, rfl⟩, ?_⟩
  exact (next_cursor_handling (fun p => .ok ⟨0, [p], if p = 1 then some 7 else none⟩)
    1 2 ⟨0, [1], some 7⟩ (by decide)).1 7 rfl

/-! ## Claim C10: unsupported ReMo category -/

/-- C10: for any category outside the supported list, ReMo.fetch raises
ValueError before purging the cache queue, pushing any fragment, calling
the transport for a page or a detail, so the cache ledger and the client
are untouched (remo.py lines 96-119). -/
theorem remo_invalid_category_no_effects (src : RSource) (offset fuel : Nat) (cat : String)
    (h : cat ∉ ["activities", "events", "users"]) :
    remoFetch src offset cat fuel = some ⟨[], [], [], [], false, some .valueError⟩ := by
  simp [remoFetch, h]

/-- Witness for remo_invalid_category_no_effects at the unsupported
category string questions. -/
theorem remo_invalid_category_no_effects_witness :
    "questions" ∉ ["activities", "events", "users"] ∧
    remoFetch ⟨fun _ => [1, 2], fun d => d, fun _ => none⟩ 0 "questions" 5 =
      some ⟨[], [], [], [], false, some .valueError⟩ :=
  ⟨by decide, remo_invalid_category_no_effects _ 0 5 "questions" (by decide)⟩

end PercevalMozilla
